import Mathlib

/-
Verification of the gobdd BDD test-execution engine (step matching,
parameter-type expansion, scenario-outline expansion, hook/step execution,
argument coercion) against its natural-language specification.

The definitions below are a shallow embedding of the Go source:
pure Go functions become Lean functions, the mutable Suite (step registry,
parameter types, error flags) is threaded explicitly, the testing.T
machinery is modelled as an explicit state (failed/skipped flags) plus an
abort flag for FailNow/Goexit unwinding, and hook/handler invocations are
recorded in an explicit event trace.

The Go code delegates text matching to the standard regexp package (RE2).
That engine is embedded here as a small regex AST with a
leftmost-first, greedy backtracking matcher covering exactly the regex
constructs the suite and its claims exercise: literals, the dot, the
escapes d, w, s, character classes with ranges and those escapes,
grouping, alternation, and the postfix operators for star, plus and
option.  Non-overlapping match counting (FindAll semantics) advances past
each leftmost match, by one character when the match is empty.
-/

namespace Gobdd

/-! ## Character helpers and Go strings helpers -/

def isDigitCh (c : Char) : Bool := decide (('0' : Char) ≤ c) && decide (c ≤ ('9' : Char))

def isWordCh (c : Char) : Bool :=
  isDigitCh c || (decide (('a' : Char) ≤ c) && decide (c ≤ ('z' : Char)))
    || (decide (('A' : Char) ≤ c) && decide (c ≤ ('Z' : Char))) || decide (c = ('_' : Char))

def isSpaceCh (c : Char) : Bool :=
  decide (c = (' ' : Char)) || decide (c = ('\t' : Char)) || decide (c = ('\n' : Char))
    || decide (c = ('\x0c' : Char)) || decide (c = ('\r' : Char))

/-- Embedding of Go strings.Contains: does pat occur as a contiguous substring? -/
def containsChars (s pat : List Char) : Bool :=
  (List.range (s.length + 1)).any (fun i => pat.isPrefixOf (s.drop i))

/-- Embedding of Go strings.Replace(s, pat, rep, -1): replace every
non-overlapping occurrence of pat, scanning left to right.  The suite only
ever replaces non-empty tokens; for an empty pat Go would interleave rep
between characters, a case never reached here and modelled as the identity. -/
def replaceChars : Nat → List Char → List Char → List Char → List Char
  | 0, s, _, _ => s
  | fuel+1, s, pat, rep =>
    if pat = [] then s
    else if pat.isPrefixOf s then rep ++ replaceChars fuel (s.drop pat.length) pat rep
    else match s with
      | [] => []
      | c :: cs => c :: replaceChars fuel cs pat rep

def containsStr (s pat : String) : Bool := containsChars s.data pat.data

def replaceAllStr (s pat rep : String) : String :=
  ⟨replaceChars (s.data.length + 1) s.data pat.data rep.data⟩

/-! ## Regex AST (embedding of the regexp patterns the suite compiles) -/

inductive ClsItem
  | rng (lo hi : Char)
  | dig
  | wrd
  | spc
deriving DecidableEq

inductive Regex
  | eps
  | chr (c : Char)
  | anyc
  | dig
  | wrd
  | spc
  | cls (neg : Bool) (items : List ClsItem)
  | seq (a b : Regex)
  | alt (a b : Regex)
  | star (r : Regex)
  | grp (idx : Nat) (r : Regex)
deriving DecidableEq

def clsItemMatch (it : ClsItem) (c : Char) : Bool :=
  match it with
  | .rng lo hi => decide (lo ≤ c) && decide (c ≤ hi)
  | .dig => isDigitCh c
  | .wrd => isWordCh c
  | .spc => isSpaceCh c

def clsMatch (neg : Bool) (items : List ClsItem) (c : Char) : Bool :=
  if neg then !(items.any (fun it => clsItemMatch it c)) else items.any (fun it => clsItemMatch it c)

/-! ## Matcher

mrunc returns, in RE2 leftmost-first preference order (greedy), the
possible outcomes of matching a prefix of the input: each outcome is the
remaining suffix together with the capture-group bindings recorded along
the way (later bindings override earlier ones, as in RE2 where a group
inside a repetition keeps its last iteration).  The fuel only decreases at
a star continuation, where each iteration is required to consume input. -/

abbrev Caps := List (Nat × List Char)

def charOut (ok : Bool) (s : List Char) : List (List Char × Caps) :=
  if ok then [(s, [])] else []

def mruncAux (starCont : Regex → List Char → List (List Char × Caps)) :
    Regex → List Char → List (List Char × Caps)
  | .eps, s => [(s, [])]
  | .chr c, s =>
    match s with
    | [] => []
    | x :: xs => charOut (decide (x = c)) xs
  | .anyc, s =>
    match s with
    | [] => []
    | x :: xs => charOut (!decide (x = ('\n' : Char))) xs
  | .dig, s =>
    match s with
    | [] => []
    | x :: xs => charOut (isDigitCh x) xs
  | .wrd, s =>
    match s with
    | [] => []
    | x :: xs => charOut (isWordCh x) xs
  | .spc, s =>
    match s with
    | [] => []
    | x :: xs => charOut (isSpaceCh x) xs
  | .cls neg items, s =>
    match s with
    | [] => []
    | x :: xs => charOut (clsMatch neg items x) xs
  | .seq a b, s =>
    (mruncAux starCont a s).flatMap (fun oa =>
      (mruncAux starCont b oa.1).map (fun ob => (ob.1, oa.2 ++ ob.2)))
  | .alt a b, s => mruncAux starCont a s ++ mruncAux starCont b s
  | .grp i r, s =>
    (mruncAux starCont r s).map (fun o => (o.1, o.2 ++ [(i, s.take (s.length - o.1.length))]))
  | .star r, s =>
    ((mruncAux starCont r s).filter (fun o => o.1.length < s.length)).flatMap
      (fun o => (starCont r o.1).map (fun o2 => (o2.1, o.2 ++ o2.2)))
      ++ [(s, [])]

def mrunc : Nat → Regex → List Char → List (List Char × Caps)
  | 0 => mruncAux (fun _ s => [(s, [])])
  | fuel+1 => mruncAux (fun r s => mrunc fuel (.star r) s)

/-- Leftmost match: scan start positions left to right, and at the first
position where the regex matches take its most-preferred outcome.
Returns (start, length, captures). -/
def findIn (r : Regex) : List Char → Option (Nat × Nat × Caps)
  | [] =>
    match (mrunc 1 r []).head? with
    | some o => some (0, 0, o.2)
    | none => none
  | x :: xs =>
    match (mrunc ((x :: xs).length + 1) r (x :: xs)).head? with
    | some o => some (0, (x :: xs).length - o.1.length, o.2)
    | none => (findIn r xs).map (fun t => (t.1 + 1, t.2.1, t.2.2))

/-- Embedding of regexp MatchString. -/
def matchString (r : Regex) (text : String) : Bool := (findIn r text.data).isSome

/-- Embedding of len(regexp.FindAll(text, -1)): number of successive
non-overlapping leftmost matches; an empty match advances one character,
and the scan stops once the next search position passes the end of the
text. -/
def countAllAux : Nat → Regex → List Char → Nat
  | 0, _, _ => 0
  | fuel+1, r, s =>
    match findIn r s with
    | none => 0
    | some (i, len, _) =>
      if i + max len 1 ≤ s.length then 1 + countAllAux fuel r (s.drop (i + max len 1))
      else 1

def countAll (r : Regex) (text : String) : Nat :=
  countAllAux (text.data.length + 1) r text.data

def capLookup (caps : Caps) (i : Nat) : Option (List Char) :=
  (caps.reverse.find? (fun p => p.1 == i)).map (fun p => p.2)

def maxGroup : Regex → Nat
  | .seq a b => max (maxGroup a) (maxGroup b)
  | .alt a b => max (maxGroup a) (maxGroup b)
  | .star r => maxGroup r
  | .grp i r => max i (maxGroup r)
  | _ => 0

/-- Embedding of regexp.FindSubmatch(text)[1:] with every captured group
converted to a Go string: one entry per capture group of the pattern, the
empty string for a group that did not participate (Go yields a nil slice
there, which the coercion layer turns into the empty string).  The Go code
only calls this after MatchString succeeded, so the no-match branch
(where Go would panic on the nil slice) is unreachable and returns []. -/
def findSubmatchParams (r : Regex) (text : String) : List String :=
  match findIn r text.data with
  | none => []
  | some (_, _, caps) =>
    (List.range (maxGroup r)).map (fun k => ⟨(capLookup caps (k + 1)).getD []⟩)

/-! ## Pattern compilation (embedding of regexp.Compile on the subset used)

A recursive-descent parser over the pattern characters.  Capture groups
are numbered in order of their opening parenthesis, as in RE2.  The
constructs outside the supported subset (flags `(?`, anchors, explicit
repetition counts, the class escapes D, W, S) are rejected; a brace that
does not open a repetition is a literal, as in RE2, which is what makes
the parameter-type tokens such as a braced int literal match literally. -/

def parseClassItems : Nat → List Char → Option (List ClsItem × List Char)
  | 0, _ => none
  | fuel+1, s =>
    match s with
    | [] => none
    | ']' :: rest => some ([], rest)
    | '\\' :: c :: rest =>
      (parseClassItems fuel rest).bind (fun p =>
        match c with
        | 'd' => some (ClsItem.dig :: p.1, p.2)
        | 'w' => some (ClsItem.wrd :: p.1, p.2)
        | 's' => some (ClsItem.spc :: p.1, p.2)
        | 'D' => none
        | 'W' => none
        | 'S' => none
        | _ => some (ClsItem.rng c c :: p.1, p.2))
    | c :: '-' :: d :: rest =>
      if d = ']' then
        (parseClassItems fuel ('-' :: d :: rest)).map (fun p => (ClsItem.rng c c :: p.1, p.2))
      else
        (parseClassItems fuel rest).map (fun p => (ClsItem.rng c d :: p.1, p.2))
    | c :: rest =>
      (parseClassItems fuel rest).map (fun p => (ClsItem.rng c c :: p.1, p.2))

inductive PCall
  | alt
  | seq
  | rep
  | post (a : Regex)
  | atom

abbrev PRes := Regex × List Char × Nat

def parseAltF (rec : PCall → List Char → Nat → Option PRes) (s : List Char) (g : Nat) :
    Option PRes :=
  (rec .seq s g).bind (fun p =>
    match p.2.1 with
    | '|' :: rest =>
      (rec .alt rest p.2.2).map (fun q => (Regex.alt p.1 q.1, q.2.1, q.2.2))
    | _ => some p)

def parseSeqF (rec : PCall → List Char → Nat → Option PRes) (s : List Char) (g : Nat) :
    Option PRes :=
  match s with
  | [] => some (Regex.eps, [], g)
  | ')' :: _ => some (Regex.eps, s, g)
  | '|' :: _ => some (Regex.eps, s, g)
  | _ =>
    (rec .rep s g).bind (fun p =>
      (rec .seq p.2.1 p.2.2).map (fun q => (Regex.seq p.1 q.1, q.2.1, q.2.2)))

def parseRepF (rec : PCall → List Char → Nat → Option PRes) (s : List Char) (g : Nat) :
    Option PRes :=
  (rec .atom s g).bind (fun p => rec (.post p.1) p.2.1 p.2.2)

def parsePostF (rec : PCall → List Char → Nat → Option PRes) (a : Regex) (s : List Char)
    (g : Nat) : Option PRes :=
  match s with
  | '*' :: rest => rec (.post (Regex.star a)) rest g
  | '+' :: rest => rec (.post (Regex.seq a (Regex.star a))) rest g
  | '?' :: rest => rec (.post (Regex.alt a Regex.eps)) rest g
  | _ => some (a, s, g)

def parseAtomF (fuel : Nat) (rec : PCall → List Char → Nat → Option PRes) (s : List Char)
    (g : Nat) : Option PRes :=
  match s with
  | [] => none
  | '(' :: '?' :: _ => none
  | '(' :: rest =>
    (rec .alt rest (g + 1)).bind (fun p =>
      match p.2.1 with
      | ')' :: rest2 => some (Regex.grp (g + 1) p.1, rest2, p.2.2)
      | _ => none)
  | '[' :: '^' :: rest =>
    (parseClassItems fuel rest).map (fun p => (Regex.cls true p.1, p.2, g))
  | '[' :: rest =>
    (parseClassItems fuel rest).map (fun p => (Regex.cls false p.1, p.2, g))
  | '.' :: rest => some (Regex.anyc, rest, g)
  | '\\' :: ch :: rest =>
    match ch with
    | 'd' => some (Regex.dig, rest, g)
    | 'w' => some (Regex.wrd, rest, g)
    | 's' => some (Regex.spc, rest, g)
    | 'D' => none
    | 'W' => none
    | 'S' => none
    | 'b' => none
    | 'B' => none
    | 'A' => none
    | 'z' => none
    | _ => some (Regex.chr ch, rest, g)
  | '\\' :: [] => none
  | ')' :: _ => none
  | '|' :: _ => none
  | '*' :: _ => none
  | '+' :: _ => none
  | '?' :: _ => none
  | '^' :: _ => none
  | '$' :: _ => none
  | ch :: rest => some (Regex.chr ch, rest, g)

/-- The recursive-descent parser as one fuel-indexed dispatch over an
explicit nonterminal tag, so that it is a single structural recursion
whose step is small. -/
def parseF : Nat → PCall → List Char → Nat → Option PRes
  | 0, _, _, _ => none
  | fuel+1, c, s, g =>
    match c with
    | .alt => parseAltF (parseF fuel) s g
    | .seq => parseSeqF (parseF fuel) s g
    | .rep => parseRepF (parseF fuel) s g
    | .post a => parsePostF (parseF fuel) a s g
    | .atom => parseAtomF fuel (parseF fuel) s g

def parseAlt (fuel : Nat) (s : List Char) (g : Nat) : Option PRes :=
  parseF fuel .alt s g

/-- Embedding of regexp.Compile: parse the whole pattern, reject leftovers
(such as an unbalanced closing parenthesis) and failures (such as an
unterminated group or class). -/
def regexCompile (pat : String) : Option Regex :=
  match parseAlt (pat.data.length * 4 + 16) pat.data 0 with
  | some (r, [], _) => some r
  | _ => none

/-! ## strconv models (the standard-library calls the coercion layer makes)

strconv.Atoi(s) is ParseInt(s, 10, 0) on a 64-bit platform: an optional
sign followed by at least one decimal digit; on a syntax error it returns
(0, err), and on a value outside the signed 64-bit range it returns the
saturated extreme of the matching sign together with ErrRange.  The pair
below is (returned value, err == nil). -/

def signSplit (cs : List Char) : List Char × Bool :=
  match cs with
  | '+' :: r => (r, false)
  | '-' :: r => (r, true)
  | r => (r, false)

def atoiCore (ds : List Char) (negv : Bool) : Int × Bool :=
  if ds = [] || !(ds.all isDigitCh) then (0, false)
  else
    let n : Nat := ds.foldl (fun acc c => acc * 10 + (c.toNat - ('0' : Char).toNat)) 0
    if negv then
      if n > 2 ^ 63 then (-(2 ^ 63 : Int), false) else (-(n : Int), true)
    else
      if n > 2 ^ 63 - 1 then ((2 ^ 63 - 1 : Int), false) else ((n : Int), true)

def atoi (s : String) : Int × Bool :=
  atoiCore (signSplit s.data).1 (signSplit s.data).2

/-- Syntactic well-formedness for Atoi, separated from the range check:
an optional sign followed by one or more decimal digits. -/
def intSyntaxValid (s : String) : Bool :=
  !((signSplit s.data).1 = []) && (signSplit s.data).1.all isDigitCh

def isHexDigitCh (c : Char) : Bool :=
  isDigitCh c || (decide (('a' : Char) ≤ c) && decide (c ≤ ('f' : Char)))
    || (decide (('A' : Char) ≤ c) && decide (c ≤ ('F' : Char)))

def stripSign (s : List Char) : List Char :=
  match s with
  | '+' :: r => r
  | '-' :: r => r
  | r => r

def mantissaOk (digit : Char → Bool) (cs : List Char) : Bool :=
  cs.all (fun c => digit c || c = '_' || c = '.')
    && cs.any digit
    && (cs.filter (fun c => c = '.')).length ≤ 1

def expOk (cs : List Char) : Bool :=
  let ds := stripSign cs
  !(ds = []) && ds.all (fun c => isDigitCh c || c = '_') && ds.any isDigitCh

/-- Syntactic well-formedness for strconv.ParseFloat, slightly
overapproximated on the side of acceptance (underscore placement rules
and a few exotic forms are not rejected): decimal mantissa with optional
exponent, the case-insensitive inf/infinity/nan words, or a hexadecimal
mantissa with its mandatory p exponent. -/
def floatSyntaxValid (s : String) : Bool :=
  let b := stripSign s.data
  let lb : List Char := b.map Char.toLower
  if lb = "inf".data || lb = "infinity".data || lb = "nan".data then true
  else
    match b with
    | '0' :: 'x' :: rest => hexFloatOk rest
    | '0' :: 'X' :: rest => hexFloatOk rest
    | _ =>
      let mant := b.takeWhile (fun c => isDigitCh c || c = '_' || c = '.')
      let rest := b.drop mant.length
      mantissaOk isDigitCh mant
        && (rest = []
            || (match rest with
                | 'e' :: e => expOk e
                | 'E' :: e => expOk e
                | _ => false))
where
  hexFloatOk (rest : List Char) : Bool :=
    let mant := rest.takeWhile (fun c => isHexDigitCh c || c = '_' || c = '.')
    let rest2 := rest.drop mant.length
    mantissaOk isHexDigitCh mant
      && (match rest2 with
          | 'p' :: e => expOk e
          | 'P' :: e => expOk e
          | _ => false)

/-- The value a float-kind parameter receives, kept symbolic: finite
values carry the source text, and the zero produced by a failed parse is
its own constructor.  strconv.ParseFloat returns (0, err) on a syntax
error; overflow to an infinity with ErrRange is not modelled, as no
verified property depends on it (the bitSize argument is likewise
irrelevant here and kept only to mirror the call sites, including the
float64 branch of the source passing bitSize 32). -/
inductive FloatRep
  | zero
  | finite (src : String)
deriving DecidableEq

def parseFloatRep (_bitSize : Nat) (s : String) : FloatRep × Bool :=
  if floatSyntaxValid s then (.finite s, true) else (.zero, false)

/-! ## Handler-argument kinds and coercion (embedding of paramType) -/

inductive Kind
  | str
  | int
  | f32
  | f64
deriving DecidableEq

inductive Value
  | str (s : String)
  | int (i : Int)
  | f32 (f : FloatRep)
  | f64 (f : FloatRep)
deriving DecidableEq

/-- Embedding of paramType: converts one captured byte slice (modelled as
its string) to the declared parameter kind.  The Atoi / ParseFloat error
is discarded exactly as in the source, so a failed parse silently yields
whatever value strconv returned alongside the error.  The float64 branch
of the source calls ParseFloat with bitSize 32; the bitSize is threaded
to mirror that. -/
def paramType (param : String) (k : Kind) : Value :=
  match k with
  | .str => .str param
  | .int => .int (atoi param).1
  | .f32 => .f32 (parseFloatRep 32 param).1
  | .f64 => .f64 (parseFloatRep 32 param).1

def numericKind : Kind → Bool
  | .str => false
  | _ => true

def zeroValueOf : Kind → Value
  | .str => .str ""
  | .int => .int 0
  | .f32 => .f32 .zero
  | .f64 => .f64 .zero

/-- Syntactic validity of a capture for a given numeric kind (the notion
the corrected coercion claim is stated over). -/
def numericSyntaxValid (k : Kind) (s : String) : Bool :=
  match k with
  | .str => true
  | .int => intSyntaxValid s
  | .f32 => floatSyntaxValid s
  | .f64 => floatSyntaxValid s

/-- Embedding of getRegexpForVar: type-sniff an example-table cell and
produce the regex fragment used for the synthesized outline pattern. -/
def getRegexpForVar (v : String) : String :=
  if (atoi v).2 then "(\\d+)"
  else if (parseFloatRep 32 v).2 then "([+-]?([0-9]*[.])?[0-9]+)"
  else "(.*)"

/-! ## Step handlers and the suite (embedding of Suite, SuiteOptions, stepDef)

A Go step handler is an arbitrary function whose first two parameters
accept the test handle and the context; it is modelled by its identity,
the kinds of its remaining parameters, and its observable behaviour when
invoked (returning normally or panicking).  Hooks are modelled by
identity only.  The reflective handler validation performed at
registration (validateStepFunc) is not under src/, so it is modelled from
the spec as a recorded well-formedness bit. -/

inductive HBehavior
  | ok
  | panics (msg : String)
deriving DecidableEq

structure Handler where
  id : Nat
  kinds : List Kind
  behavior : HBehavior
  valid : Bool
deriving DecidableEq

structure stepDef where
  expr : Regex
  f : Handler
deriving DecidableEq

structure SuiteOptions where
  featuresPaths : String
  ignoreTags : List String
  tags : List String
  beforeScenario : List Nat
  afterScenario : List Nat
  beforeStep : List Nat
  afterStep : List Nat
  runInParallel : Bool
deriving DecidableEq

/-- Embedding of NewSuiteOptions. -/
def newSuiteOptions : SuiteOptions :=
  { featuresPaths := "features/*.feature"
    ignoreTags := []
    tags := []
    beforeScenario := []
    afterScenario := []
    beforeStep := []
    afterStep := []
    runInParallel := false }

/-- The suite state threaded through registration and execution.  Go's
parameterTypes is a map from token to fragments; it is modelled as an
association list in first-insertion order (Go map iteration order is
unspecified, so any fixed order is one admissible execution).
setupFatal records that AddParameterTypes hit a non-compiling fragment,
where the source kills the suite with Fatalf. -/
structure Suite where
  steps : List stepDef
  options : SuiteOptions
  hasStepErrors : Bool
  parameterTypes : List (String × List String)
  setupFatal : Bool
deriving DecidableEq

def ptAppend : List (String × List String) → String → String → List (String × List String)
  | [], k, v => [(k, [v])]
  | (k0, vs) :: rest, k, v =>
    if k0 = k then (k0, vs ++ [v]) :: rest else (k0, vs) :: ptAppend rest k v

/-- Embedding of AddParameterTypes: each fragment must compile; a failure
is fatal to suite setup (nothing further happens). -/
def addParameterTypes (s : Suite) (tok : String) (frs : List String) : Suite :=
  frs.foldl (fun acc t =>
    if acc.setupFatal then acc
    else if (regexCompile t).isSome then
      { acc with parameterTypes := ptAppend acc.parameterTypes tok t }
    else { acc with setupFatal := true }) s

/-- Modelled from the spec: validateStepFunc is called by AddStep but its
definition is not under src/; per the spec it checks the handler's
parameter-count/shape contract (first two parameters must accept the test
handle and the context), which the Handler model records as a
well-formedness bit. -/
def validateStepFunc (h : Handler) : Bool := h.valid

/-- Embedding of NewSuite: empty step registry plus the four built-in
parameter types. -/
def newSuite (options : SuiteOptions) : Suite :=
  let base : Suite :=
    { steps := [], options := options, hasStepErrors := false
      parameterTypes := [], setupFatal := false }
  addParameterTypes
    (addParameterTypes
      (addParameterTypes
        (addParameterTypes base "{int}" ["(\\d)"])
        "{float}" ["([-+]?\\d*\\.?\\d*)"])
      "{word}" ["([\\d\\w]+)"])
    "{text}" ["\"([\\d\\w\\-\\s]+)\"", "\x27([\\d\\w\\-\\s]+)\x27"]

/-- Embedding of applyParameterTypes: the original pattern plus, for each
registered fragment of each token the pattern contains, one variant with
every occurrence of that token replaced by the fragment. -/
def applyParameterTypes (s : Suite) (expr : String) : List String :=
  s.parameterTypes.foldl (fun exprs p =>
    p.2.foldl (fun exprs2 t =>
      if containsStr expr p.1 then exprs2 ++ [replaceAllStr expr p.1 t] else exprs2) exprs)
    [expr]

def regLoop : Suite → List String → Handler → Suite
  | s, [], _ => s
  | s, e :: es, h =>
    match regexCompile e with
    | none => { s with hasStepErrors := true }
    | some r => regLoop { s with steps := s.steps ++ [⟨r, h⟩] } es h

/-- Embedding of AddStep: validate the handler, expand the pattern, and
register one stepDef per compiled candidate, all bound to the same
handler; the first non-compiling candidate marks the suite as having step
errors and stops (candidates already registered remain). -/
def addStep (s : Suite) (expr : String) (h : Handler) : Suite :=
  if !(validateStepFunc h) then { s with hasStepErrors := true }
  else regLoop s (applyParameterTypes s expr) h

/-- Embedding of the step of findStepDef's loop: skip a definition whose
pattern does not match; otherwise keep it when its non-overlapping match
count strictly exceeds the best so far. -/
def fsdStep (text : String) (acc : Nat × Option stepDef) (sd : stepDef) : Nat × Option stepDef :=
  if !(matchString sd.expr text) then acc
  else if countAll sd.expr text > acc.1 then (countAll sd.expr text, some sd)
  else acc

/-- Embedding of findStepDef.  The source detects, via DeepEqual against
the zero stepDef, that the accumulator was never assigned; registered
definitions always carry a compiled pattern and a validated handler and
are never the zero value, so that check is equivalent to the Option
accumulator used here, with none standing for the not-found error. -/
def findStepDef (steps : List stepDef) (text : String) : Option stepDef :=
  (steps.foldl (fsdStep text) (0, none)).2

/-- Embedding of the source's contains helper. -/
def contains (a : List String) (x : String) : Bool := a.any (fun n => x = n)

/-! ## Gherkin document model (the external parser's output, as consumed) -/

structure GTag where
  name : String
  line : Nat
deriving DecidableEq

structure GCellRow where
  cells : List String
deriving DecidableEq

structure GExamples where
  tableHeader : GCellRow
  tableBody : List GCellRow
deriving DecidableEq

structure GStep where
  keyword : String
  text : String
  line : Nat
deriving DecidableEq

structure GScenario where
  id : String
  keyword : String
  name : String
  description : String
  tags : List GTag
  steps : List GStep
  examples : List GExamples
deriving DecidableEq

structure GBackground where
  steps : List GStep
deriving DecidableEq

inductive GChild
  | bkg (b : GBackground)
  | scn (sc : GScenario)
deriving DecidableEq

structure GFeature where
  name : String
  description : String
  keyword : String
  line : Nat
  tags : List GTag
  children : List GChild
deriving DecidableEq

/-- GetScenario() on a background child returns the nil pointer; the
possibly-nil scenario pointer is modelled as an Option. -/
def childScenario : GChild → Option GScenario
  | .bkg _ => none
  | .scn sc => some sc

/-- Embedding of skipScenario: an ignored tag skips; otherwise an empty
allow-list never skips, and a non-empty allow-list skips unless some
scenario tag is in it. -/
def skipScenario (s : Suite) (scenarioTags : List GTag) : Bool :=
  if scenarioTags.any (fun tag => contains s.options.ignoreTags tag.name) then true
  else if s.options.tags.length = 0 then false
  else if scenarioTags.any (fun tag => contains s.options.tags tag.name) then false
  else true

/-! ## Cucumber report records (embedding of formatter/cucumber datatypes) -/

structure CStepresult where
  errorMsg : String
  runStatus : String
  executionTime : Int
deriving DecidableEq

structure CFilelocation where
  location : String
deriving DecidableEq

structure CStep where
  stepResult : CStepresult
  mtch : CFilelocation
  keyword : String
  name : String
  line : Nat
deriving DecidableEq

structure CTag where
  name : String
  linenumber : Nat
deriving DecidableEq

structure CScenario where
  steps : List CStep
  tags : List CTag
  id : String
  keyword : String
  name : String
  description : String
  ty : String
deriving DecidableEq

structure CFeature where
  elements : List CScenario
  uri : String
  id : String
  keyword : String
  name : String
  description : String
  linenumber : Nat
deriving DecidableEq

/-- Embedding of cucumber.GenerateStep. -/
def generateStep (keyword name : String) (line : Nat) (location : String) : CStep :=
  { stepResult := { errorMsg := "", runStatus := "", executionTime := 0 }
    mtch := { location := location }
    keyword := keyword
    name := name
    line := line }

/-- Embedding of Step.UpdateResult. -/
def updateResult (s : CStep) (status : String) (duration : Int) : CStep :=
  { s with stepResult := { errorMsg := "", runStatus := status, executionTime := duration } }

/-- Embedding of cucumber.GenerateFeature. -/
def generateFeature (name id description : String) (line : Nat) : CFeature :=
  { elements := []
    uri := name
    id := id
    keyword := "Feature"
    name := name
    description := description
    linenumber := line }

/-- Embedding of Feature.AddScenario. -/
def addScenarioF (f : CFeature) (sc : CScenario) : CFeature :=
  { f with elements := f.elements ++ [sc] }

/-- Embedding of Scenario.AddStepObj. -/
def addStepObj (sc : CScenario) (st : CStep) : CScenario :=
  { sc with steps := sc.steps ++ [st] }

/-- Embedding of Scenario.AddStep (with a result status). -/
def addStepC (sc : CScenario) (keyword name : String) (line : Nat) (location result : String) : CScenario :=
  { sc with steps := sc.steps ++
      [{ stepResult := { errorMsg := "", runStatus := result, executionTime := 0 }
         mtch := { location := location }
         keyword := keyword
         name := name
         line := line }] }

/-- Embedding of cucumber.FormatTags. -/
def formatTags (tags : List GTag) : List CTag :=
  tags.map (fun t => { name := t.name, linenumber := t.line })

/-- Embedding of cucumber.FormatScenario (no steps). -/
def formatScenario (sc : GScenario) : CScenario :=
  { steps := []
    tags := formatTags sc.tags
    id := sc.id
    keyword := sc.keyword
    name := sc.name
    description := sc.description
    ty := sc.keyword }

/-- Embedding of cucumber.FormatScenarioWithSteps: every step of the
scenario is recorded with the single given status string. -/
def formatScenarioWithSteps (sc : GScenario) (stepstatus : String) : CScenario :=
  sc.steps.foldl (fun acc st => addStepC acc st.keyword st.text st.line "" stepstatus)
    (formatScenario sc)

/-- Embedding of cucumber.FormatFeature (no scenarios yet). -/
def formatFeature (f : GFeature) : CFeature :=
  generateFeature f.name f.name f.description f.line

/-- Embedding of cucumber.FormatScenarioWithSteps applied to a
possibly-nil scenario pointer: the record fields are built through the
nil-safe protobuf getters, but the loop then dereferences
gherkinScenario.Steps directly, so a nil scenario panics — modelled as
none. -/
def formatScenarioWithStepsOpt : Option GScenario → String → Option CScenario
  | none, _ => none
  | some sc, v => some (formatScenarioWithSteps sc v)

def ffwsChildren : CFeature → List GChild → Option CFeature
  | ft, [] => some ft
  | ft, c :: rest =>
    match formatScenarioWithStepsOpt (childScenario c) "" with
    | none => none
    | some sc => ffwsChildren (addScenarioF ft sc) rest

/-- Embedding of cucumber.FormatFeatureWithScenario: one element per
feature child, each scenario child's steps carrying the empty status
string.  A background child passes the nil scenario returned by
GetScenario() to FormatScenarioWithSteps, which panics on the direct
Steps dereference; the panic aborts the call with no record, modelled by
the none result. -/
def formatFeatureWithScenario (f : GFeature) : Option CFeature :=
  ffwsChildren (formatFeature f) f.children

/-! ## Scenario-outline expansion (embedding of stepFromExample,
stepsFromExamples, getOutlineStep) -/

/-- Embedding of stepFromExample: substitute each placeholder with the
row's cell value in the step text, and with a type-sniffed regex fragment
in the synthesized pattern.  The source indexes row.Cells in lockstep
with the placeholders (panicking if the row is shorter, a case the claims
never reach); the zip realizes the lockstep. -/
def stepFromExample (stepName : String) (rowCells : List String) (placeholders : List String) :
    String × String :=
  (placeholders.zip rowCells).foldl
    (fun acc p =>
      let t := getRegexpForVar p.2
      (replaceAllStr acc.1 p.1 p.2, replaceAllStr acc.2 p.1 t))
    (stepName, stepName)

/-- The body of stepsFromExamples' row loop: substitute, look the
substituted text up (a row whose text does not resolve is silently
dropped), register the synthesized pattern against the found definition's
handler, and clone the source step with the substituted text. -/
def sfeRow (sourceStep : GStep) (placeholders : List String) (acc : Suite × List GStep)
    (row : GCellRow) : Suite × List GStep :=
  let p := stepFromExample sourceStep.text row.cells placeholders
  match findStepDef acc.1.steps p.1 with
  | none => acc
  | some d =>
    (addStep acc.1 p.2 d.f, acc.2 ++ [{ sourceStep with text := p.1 }])

/-- Embedding of stepsFromExamples: fold the row loop over the example
table's body. -/
def stepsFromExamples (s : Suite) (sourceStep : GStep) (ex : GExamples) :
    Suite × List GStep :=
  ex.tableBody.foldl
    (sfeRow sourceStep (ex.tableHeader.cells.map (fun c => "<" ++ c ++ ">"))) (s, [])

def gosInner (st : GStep) (acc2 : Suite × List GStep) (ex : GExamples) :
    Suite × List GStep :=
  let r := stepsFromExamples acc2.1 st ex
  (r.1, acc2.2 ++ r.2)

def gosStep (examples : List GExamples) (acc : Suite × List (List GStep)) (st : GStep) :
    Suite × List (List GStep) :=
  let inner := examples.foldl (gosInner st) (acc.1, [])
  (inner.1, acc.2 ++ [inner.2])

/-- Embedding of getOutlineStep: build, per source step, the list of its
substituted steps across all example tables, then emit them grouped by
example row (row-major).  The source indexes stepsList[si][ci] directly
and would panic when a row was dropped by stepsFromExamples or several
example tables are mixed; the getD default stands for that unreachable
panic in the executions the claims cover. -/
def getOutlineStep (s : Suite) (steps : List GStep) (examples : List GExamples) :
    Suite × List GStep :=
  let built := steps.foldl (gosStep examples) (s, [])
  if built.2 = [] then (built.1, [])
  else
    let dummy : GStep := { keyword := "", text := "", line := 0 }
    let newSteps := examples.flatMap (fun ex =>
      (List.range ex.tableBody.length).flatMap (fun ci =>
        (List.range steps.length).map (fun si => ((built.2.getD si []).getD ci dummy))))
    (built.1, newSteps)

/-! ## Executor (embedding of runFeature / runScenario / runSteps / runStep
and stepDef.run)

testing.T is modelled as its observable state (failed and skipped flags);
t.Run opens a fresh child state whose failure marks the parent when the
child finishes, and absorbs a Goexit (Fatalf/FailNow) raised inside its
body.  Hook and handler invocations are recorded in an event trace; the
execution context carries only the test handle and the step-start
timestamp during a run, neither of which any verified property observes,
so its threading through the executor is not modelled (the context
structure itself is modelled below for the clone property).  Wall-clock
durations are modelled as zero. -/

structure TState where
  failed : Bool
  skipped : Bool
deriving DecidableEq

def tInit : TState := { failed := false, skipped := false }

inductive Ev
  | beforeScenarioHook (id : Nat)
  | afterScenarioHook (id : Nat)
  | beforeStepHook (id : Nat)
  | afterStepHook (id : Nat)
  | handlerCalled (id : Nat) (args : List Value)
deriving DecidableEq

/-- Embedding of stepDef.run: an argument-count mismatch is a Fatalf on
the step subtest (failing it and unwinding, reported by the Bool); the
handler is otherwise invoked with the coerced arguments, and a panic
inside it is recovered and turned into Errorf on the step subtest. -/
def stepDefRun (d : stepDef) (t : TState) (params : List String) : TState × List Ev × Bool :=
  if params.length + 2 ≠ d.f.kinds.length + 2 then ({ t with failed := true }, [], true)
  else
    let args := (params.zip d.f.kinds).map (fun p => paramType p.1 p.2)
    match d.f.behavior with
    | .ok => (t, [.handlerCalled d.f.id args], false)
    | .panics _ => ({ t with failed := true }, [.handlerCalled d.f.id args], false)

/-- Embedding of generateFormattedStep (durations modelled as zero).
The source initializes the status to passed, then overwrites with failed,
then with skipped, so skipped wins over failed. -/
def generateFormattedStep (step : GStep) (isfailed isskipped : Bool) : CStep :=
  let status := if isskipped then "skipped" else if isfailed then "failed" else "passed"
  updateResult (generateStep step.keyword step.text step.line "") status 0

/-- Embedding of runStep.  An unresolved step is a Fatalf on the
scenario-level test: the scenario test is failed and unwound, which the
none result records; no hook runs for that step.  Otherwise the step runs
in its own subtest: before-step hooks, the handler via stepDef.run, then
the deferred after-step hooks, which run even when stepDef.run unwound.
The failed/skipped flags read after stepDef.run are skipped by an unwind,
leaving the recorded status passed in that case, exactly as in the
source. -/
def runStep (s : Suite) (t : TState) (step : GStep) : TState × Option CStep × List Ev :=
  match findStepDef s.steps step.text with
  | none => ({ t with failed := true }, none, [])
  | some d =>
    let params := findSubmatchParams d.expr step.text
    let bevs := s.options.beforeStep.map Ev.beforeStepHook
    let r := stepDefRun d tInit params
    let aevs := s.options.afterStep.map Ev.afterStepHook
    let captured := if r.2.2 then (false, false) else (r.1.failed, r.1.skipped)
    let fstep := generateFormattedStep step captured.1 captured.2
    ({ t with failed := t.failed || r.1.failed }, some fstep, bevs ++ r.2.1 ++ aevs)

/-- Embedding of runSteps: run the steps in order, appending each
formatted step to the scenario record; an unresolved step unwinds the
scenario (final Bool), dropping the record updates as the source's
assignment never happens past the unwind. -/
def runSteps (s : Suite) (t : TState) (steps : List GStep) (acc : CScenario) :
    TState × CScenario × List Ev × Bool :=
  match steps with
  | [] => (t, acc, [], false)
  | st :: rest =>
    let r := runStep s t st
    match r.2.1 with
    | none => (r.1, acc, r.2.2, true)
    | some fstep =>
      let r2 := runSteps s r.1 rest (addStepObj acc fstep)
      (r2.1, r2.2.1, r.2.2 ++ r2.2.2.1, r2.2.2.2)

/-- Embedding of runScenario.  The scenario body runs in its own subtest:
before-scenario hooks, the background steps (their record is discarded),
then — after expanding an outline through getOutlineStep — the scenario's
steps; the deferred after-scenario hooks run even when an unresolved step
unwound the subtest, in which case the formatted-scenario assignment is
lost and the initial record (without steps) is returned.  Outline
registration mutates the suite, which is threaded out. -/
def runScenario (s : Suite) (sc : GScenario) (bkg : Option GBackground) :
    Suite × CScenario × List Ev × Bool :=
  let initRec := formatScenario sc
  let bsevs := s.options.beforeScenario.map Ev.beforeScenarioHook
  let asevs := s.options.afterScenario.map Ev.afterScenarioHook
  let zeroRec : CScenario :=
    { steps := [], tags := [], id := "", keyword := "", name := "", description := "", ty := "" }
  let bg := match bkg with
    | some b => runSteps s tInit b.steps zeroRec
    | none => (tInit, zeroRec, ([] : List Ev), false)
  if bg.2.2.2 then
    (s, initRec, bsevs ++ bg.2.2.1 ++ asevs, bg.1.failed)
  else
    let expanded :=
      if sc.examples ≠ [] then getOutlineStep s sc.steps sc.examples else (s, sc.steps)
    let body := runSteps expanded.1 bg.1 expanded.2 initRec
    let record := if body.2.2.2 then initRec else body.2.1
    (expanded.1, record, bsevs ++ bg.2.2.1 ++ body.2.2.1 ++ asevs, body.1.failed)

/-- Embedding of the scenario arm of runFeature's child loop: tag-based
skip is evaluated before any hook fires; a skipped scenario contributes a
record whose steps all carry the skipped status and no events. -/
def processScenario (s : Suite) (tf : TState) (bkg : Option GBackground) (sc : GScenario) :
    Suite × CScenario × List Ev × TState :=
  if skipScenario s sc.tags then
    (s, formatScenarioWithSteps sc "skipped", [], tf)
  else
    let r := runScenario s sc bkg
    (r.1, r.2.1, r.2.2.1, { tf with failed := tf.failed || r.2.2.2 })

/-- Embedding of runFeature's loop over feature children: a background
child only updates the pending background; a scenario child is processed
and its record appended. -/
def runFeatureLoop (s : Suite) (tf : TState) (bkg : Option GBackground) (ff : CFeature) :
    List GChild → Suite × CFeature × List Ev × TState
  | [] => (s, ff, [], tf)
  | .bkg b :: rest => runFeatureLoop s tf (some b) ff rest
  | .scn sc :: rest =>
    let r := processScenario s tf bkg sc
    let r2 := runFeatureLoop r.1 r.2.2.2 bkg (addScenarioF ff r.2.1) rest
    (r2.1, r2.2.1, r.2.2.1 ++ r2.2.2.1, r2.2.2.2)

/-- Embedding of runFeature: a feature carrying an ignored tag is
reported through FormatFeatureWithScenario and nothing runs (that
formatter panics when the feature has a background child, in which case
the whole call dies without a result — the none outcome); otherwise the
children are walked in order inside the feature subtest and a result is
always produced.  The source's hasErrors flag is never set, so the error
return is always nil; the Bool returned here is the feature subtest's
failure state. -/
def runFeature (s : Suite) (f : GFeature) : Option (Suite × CFeature × List Ev × Bool) :=
  if f.tags.any (fun tag => contains s.options.ignoreTags tag.name) then
    (formatFeatureWithScenario f).map (fun ff => (s, ff, [], false))
  else
    let r := runFeatureLoop s tInit none (formatFeature f) f.children
    some (r.1, r.2.1, r.2.2.1, r.2.2.2.failed)

/-! ## Execution context (modelled from the spec)

Modelled from the spec: the Context type with NewContext, Get, Set and
Clone is referenced throughout the executor but its definition is not
under src/.  Per the spec it is a mutable mapping from arbitrary
comparable keys to values, owned by reference, whose clone operation
produces an independent copy.  To make the no-shared-backing-storage
claim meaningful the store is modelled as a heap: a list of association
lists indexed by context references, with clone allocating a fresh
reference holding a copy. -/

abbrev CtxHeap (K V : Type) : Type := List (List (K × V))

def ctxAssocSet {K V : Type} [DecidableEq K] : List (K × V) → K → V → List (K × V)
  | [], k, v => [(k, v)]
  | (k0, v0) :: rest, k, v =>
    if k0 = k then (k, v) :: rest else (k0, v0) :: ctxAssocSet rest k v

def ctxAssocGet {K V : Type} [DecidableEq K] (m : List (K × V)) (k : K) : Option V :=
  (m.find? (fun p => p.1 = k)).map (fun p => p.2)

def newContext {K V : Type} (h : CtxHeap K V) : CtxHeap K V × Nat :=
  (List.append h [[]], h.length)

def cloneCtx {K V : Type} (h : CtxHeap K V) (r : Nat) : CtxHeap K V × Nat :=
  (List.append h [h.getD r []], h.length)

def setCtx {K V : Type} [DecidableEq K] (h : CtxHeap K V) (r : Nat) (k : K) (v : V) :
    CtxHeap K V :=
  h.set r (ctxAssocSet (h.getD r []) k v)

def getCtx {K V : Type} [DecidableEq K] (h : CtxHeap K V) (r : Nat) (k : K) : Option V :=
  ctxAssocGet (h.getD r []) k

/-! ## Lemmas about the findStepDef fold -/

theorem fsdStep_no_match (text : String) (acc : Nat × Option stepDef) (sd : stepDef)
    (hm : matchString sd.expr text = false) : fsdStep text acc sd = acc := by
  simp [fsdStep, hm]

theorem fsdStep_low (text : String) (acc : Nat × Option stepDef) (sd : stepDef)
    (hle : countAll sd.expr text ≤ acc.1) : fsdStep text acc sd = acc := by
  unfold fsdStep
  split
  · rfl
  · split
    · next hgt => exact absurd hgt (by omega)
    · rfl

theorem fsdStep_high (text : String) (acc : Nat × Option stepDef) (sd : stepDef)
    (hm : matchString sd.expr text = true) (hgt : acc.1 < countAll sd.expr text) :
    fsdStep text acc sd = (countAll sd.expr text, some sd) := by
  simp [fsdStep, hm, hgt]

theorem foldl_fsd_skip (text : String) :
    ∀ (l : List stepDef) (acc : Nat × Option stepDef),
      (∀ sd ∈ l, matchString sd.expr text = true → countAll sd.expr text ≤ acc.1) →
      l.foldl (fsdStep text) acc = acc
  | [], _, _ => rfl
  | sd :: rest, acc, h => by
    have hsd : fsdStep text acc sd = acc := by
      by_cases hm : matchString sd.expr text
      · exact fsdStep_low text acc sd (h sd (List.mem_cons_self sd rest) hm)
      · exact fsdStep_no_match text acc sd (by simpa using hm)
    rw [List.foldl_cons, hsd]
    exact foldl_fsd_skip text rest acc (fun s hs hm => h s (List.mem_cons_of_mem sd hs) hm)

theorem foldl_fsd_le (text : String) :
    ∀ (l : List stepDef) (acc : Nat × Option stepDef),
      acc.1 ≤ (l.foldl (fsdStep text) acc).1
  | [], _ => le_refl _
  | sd :: rest, acc => by
    rw [List.foldl_cons]
    refine le_trans ?_ (foldl_fsd_le text rest (fsdStep text acc sd))
    by_cases hm : matchString sd.expr text
    · by_cases hgt : acc.1 < countAll sd.expr text
      · rw [fsdStep_high text acc sd hm hgt]
        exact le_of_lt hgt
      · rw [fsdStep_low text acc sd (by omega)]
    · rw [fsdStep_no_match text acc sd (by simpa using hm)]

theorem foldl_fsd_bound (text : String) :
    ∀ (l : List stepDef) (acc : Nat × Option stepDef) (sd : stepDef),
      sd ∈ l → matchString sd.expr text = true →
      countAll sd.expr text ≤ (l.foldl (fsdStep text) acc).1
  | [], _, _, h, _ => absurd h (List.not_mem_nil _)
  | s0 :: rest, acc, sd, hmem, hm => by
    rw [List.foldl_cons]
    rcases List.mem_cons.mp hmem with heq | hrest
    · subst heq
      refine le_trans ?_ (foldl_fsd_le text rest (fsdStep text acc sd))
      by_cases hgt : acc.1 < countAll sd.expr text
      · rw [fsdStep_high text acc sd hm hgt]
      · rw [fsdStep_low text acc sd (by omega)]
        omega
    · exact foldl_fsd_bound text rest (fsdStep text acc s0) sd hrest hm

theorem foldl_fsd_cases (text : String) :
    ∀ (l : List stepDef) (acc : Nat × Option stepDef),
      l.foldl (fsdStep text) acc = acc ∨
      ∃ sd ∈ l, matchString sd.expr text = true ∧
        (l.foldl (fsdStep text) acc).1 = countAll sd.expr text ∧
        (l.foldl (fsdStep text) acc).2 = some sd
  | [], _ => Or.inl rfl
  | s0 :: rest, acc => by
    rw [List.foldl_cons]
    by_cases hm : matchString s0.expr text
    · by_cases hgt : acc.1 < countAll s0.expr text
      · rw [fsdStep_high text acc s0 hm hgt]
        rcases foldl_fsd_cases text rest (countAll s0.expr text, some s0) with h | ⟨sd2, hs2, hm2, h1, h2⟩
        · right
          exact ⟨s0, List.mem_cons_self s0 rest, hm, by rw [h], by rw [h]⟩
        · right
          exact ⟨sd2, List.mem_cons_of_mem s0 hs2, hm2, h1, h2⟩
      · rw [fsdStep_low text acc s0 (by omega)]
        rcases foldl_fsd_cases text rest acc with h | ⟨sd2, hs2, hm2, h1, h2⟩
        · exact Or.inl h
        · exact Or.inr ⟨sd2, List.mem_cons_of_mem s0 hs2, hm2, h1, h2⟩
    · rw [fsdStep_no_match text acc s0 (by simpa using hm)]
      rcases foldl_fsd_cases text rest acc with h | ⟨sd2, hs2, hm2, h1, h2⟩
      · exact Or.inl h
      · exact Or.inr ⟨sd2, List.mem_cons_of_mem s0 hs2, hm2, h1, h2⟩

theorem foldl_fsd_lt (text : String) (c : Nat) :
    ∀ (l : List stepDef) (acc : Nat × Option stepDef),
      acc.1 < c →
      (∀ sd ∈ l, matchString sd.expr text = true → countAll sd.expr text < c) →
      (l.foldl (fsdStep text) acc).1 < c
  | [], _, hacc, _ => hacc
  | s0 :: rest, acc, hacc, h => by
    rw [List.foldl_cons]
    refine foldl_fsd_lt text c rest (fsdStep text acc s0) ?_
      (fun s hs hm => h s (List.mem_cons_of_mem s0 hs) hm)
    by_cases hm : matchString s0.expr text
    · by_cases hgt : acc.1 < countAll s0.expr text
      · rw [fsdStep_high text acc s0 hm hgt]
        exact h s0 (List.mem_cons_self s0 rest) hm
      · rw [fsdStep_low text acc s0 (by omega)]
        exact hacc
    · rw [fsdStep_no_match text acc s0 (by simpa using hm)]
      exact hacc

theorem countAllAux_succ_some (fuel : Nat) (r : Regex) (s : List Char) (i len : Nat)
    (caps : Caps) (hfi : findIn r s = some (i, len, caps)) :
    countAllAux (fuel + 1) r s =
      if i + max len 1 ≤ s.length then 1 + countAllAux fuel r (s.drop (i + max len 1))
      else 1 := by
  simp only [countAllAux]
  rw [hfi]

theorem countAll_pos (r : Regex) (text : String) (h : matchString r text = true) :
    1 ≤ countAll r text := by
  unfold matchString at h
  rcases hfi : findIn r text.data with _ | ⟨i, len, caps⟩
  · rw [hfi] at h
    simp at h
  · unfold countAll
    rw [countAllAux_succ_some text.data.length r text.data i len caps hfi]
    split <;> omega

/-! ## Resolution claims (C1, C10) -/

def c1GenDef : stepDef := ⟨(regexCompile "a (.*) number").getD .eps, ⟨10, [Kind.str], .ok, true⟩⟩

def c1LitDef : stepDef := ⟨(regexCompile "a 5 number").getD .eps, ⟨20, [], .ok, true⟩⟩

def c10FirstDef : stepDef := ⟨(regexCompile "a 5 number").getD .eps, ⟨21, [], .ok, true⟩⟩

def c10SecondDef : stepDef := ⟨(regexCompile "a 5 number").getD .eps, ⟨22, [], .ok, true⟩⟩

/-- C1 (amended): findStepDef selects, among the registered patterns whose
regex matches the step text, one whose number of non-overlapping matches
against the text is maximal, and fails with the not-found error when no
pattern matches; but the comparison is strict, so equal match counts keep
the earliest registration.  Both "a (.*) number" and "a 5 number" produce
exactly one match on the text "a 5 number", hence the literal pattern
wins only when it is registered first (the claim's either-order promise
fails; see the counterexample). -/
theorem c1_resolution_max_count (steps : List stepDef) (text : String) :
    ((∀ sd ∈ steps, matchString sd.expr text = false) → findStepDef steps text = none) ∧
    (∀ sd : stepDef, findStepDef steps text = some sd →
      sd ∈ steps ∧ matchString sd.expr text = true ∧
      ∀ s2 ∈ steps, matchString s2.expr text = true →
        countAll s2.expr text ≤ countAll sd.expr text) ∧
    ((∃ sd ∈ steps, matchString sd.expr text = true) →
      (findStepDef steps text).isSome = true) ∧
    findStepDef [c1LitDef, c1GenDef] "a 5 number" = some c1LitDef := by
  refine ⟨?_, ?_, ?_, by decide⟩
  · intro h
    unfold findStepDef
    rw [foldl_fsd_skip text steps (0, none)
      (fun sd hs hm => by rw [h sd hs] at hm; cases hm)]
  · intro sd hsd
    unfold findStepDef at hsd
    rcases foldl_fsd_cases text steps (0, none) with h | ⟨sd0, hs0, hm0, h1, h2⟩
    · rw [h] at hsd
      cases hsd
    · rw [h2] at hsd
      cases hsd
      refine ⟨hs0, hm0, ?_⟩
      intro s2 hs2 hm2
      have hb := foldl_fsd_bound text steps (0, none) s2 hs2 hm2
      omega
  · rintro ⟨sd, hs, hm⟩
    rcases foldl_fsd_cases text steps (0, none) with h | ⟨sd0, hs0, hm0, h1, h2⟩
    · exfalso
      have hb := foldl_fsd_bound text steps (0, none) sd hs hm
      rw [h] at hb
      have hp := countAll_pos sd.expr text hm
      simp at hb
      omega
    · unfold findStepDef
      rw [h2]
      rfl

theorem c1_resolution_max_count_witness :
    findStepDef [c1LitDef, c1GenDef] "a 5 number" = some c1LitDef ∧
    (findStepDef [c1LitDef, c1GenDef] "a 5 number").isSome = true :=
  ⟨(c1_resolution_max_count [c1LitDef, c1GenDef] "a 5 number").2.2.2,
   (c1_resolution_max_count [c1LitDef, c1GenDef] "a 5 number").2.2.1
     ⟨c1LitDef, by decide, by decide⟩⟩

/-- C1 counterexample: with the catch-all pattern registered first, both
patterns produce exactly one non-overlapping match on the text
"a 5 number", and resolution returns the catch-all definition — not the
literal pattern the claim promises for either registration order. -/
theorem c1_counterexample :
    findStepDef [c1GenDef, c1LitDef] "a 5 number" = some c1GenDef ∧
    c1GenDef ≠ c1LitDef ∧
    countAll c1GenDef.expr "a 5 number" = 1 ∧
    countAll c1LitDef.expr "a 5 number" = 1 := by
  decide

/-- C10: among registered definitions that match the step text with the
same maximal number of non-overlapping matches, findStepDef returns the
one registered earliest: any definition whose earlier-registered matching
rivals all have strictly smaller counts, and whose later-registered
matching rivals have no larger count, is the one returned (resolution is
a function of the registration list and text, hence deterministic). -/
theorem c10_tie_goes_to_earliest (pre post : List stepDef) (sd : stepDef) (text : String)
    (hm : matchString sd.expr text = true)
    (hpre : ∀ s2 ∈ pre, matchString s2.expr text = true →
      countAll s2.expr text < countAll sd.expr text)
    (hpost : ∀ s2 ∈ post, matchString s2.expr text = true →
      countAll s2.expr text ≤ countAll sd.expr text) :
    findStepDef (pre ++ sd :: post) text = some sd := by
  unfold findStepDef
  rw [List.foldl_append, List.foldl_cons]
  have h1 : (pre.foldl (fsdStep text) (0, none)).1 < countAll sd.expr text := by
    refine foldl_fsd_lt text (countAll sd.expr text) pre (0, none) ?_ hpre
    have := countAll_pos sd.expr text hm
    simpa using this
  rw [fsdStep_high text _ sd hm h1]
  rw [foldl_fsd_skip text post (countAll sd.expr text, some sd) (fun s2 hs2 hm2 => hpost s2 hs2 hm2)]

theorem c10_tie_goes_to_earliest_witness :
    findStepDef [c10FirstDef, c10SecondDef] "a 5 number" = some c10FirstDef :=
  c10_tie_goes_to_earliest [] [c10SecondDef] c10FirstDef "a 5 number" (by decide)
    (fun s2 h => absurd h (List.not_mem_nil s2))
    (fun s2 hs2 _ => by
      rcases List.mem_singleton.mp hs2 with rfl
      decide)

/-! ## Coercion claim (C2) -/

theorem atoiCore_invalid (ds : List Char) (negv : Bool)
    (h : (!decide (ds = []) && ds.all isDigitCh) = false) :
    atoiCore ds negv = (0, false) := by
  unfold atoiCore
  by_cases hd : ds = []
  · rw [if_pos (by simp [hd])]
  · by_cases ha : ds.all isDigitCh
    · exfalso
      simp [hd, ha] at h
    · rw [if_pos (by simp [hd, ha])]

theorem atoi_invalid (s : String) (h : intSyntaxValid s = false) : atoi s = (0, false) := by
  unfold intSyntaxValid at h
  exact atoiCore_invalid (signSplit s.data).1 (signSplit s.data).2 h

/-- C2 (amended): a captured group whose text is not syntactically valid
for the declared numeric kind (int, float32, float64) is coerced to that
kind's zero value, the handler is invoked with that zero, and the step is
not failed by the conversion — stepDef.run neither fails the test state
nor unwinds.  (The original claim extends this to every failed parse; a
syntactically valid but out-of-range integer is instead delivered as the
saturated 64-bit extreme that strconv returns alongside ErrRange — see the
counterexample.) -/
theorem c2_coercion_zero_on_syntax_error (cap : String) (k : Kind) (h : Handler) (t : TState)
    (r : Regex)
    (hk : numericKind k = true)
    (hs : numericSyntaxValid k cap = false)
    (hkinds : h.kinds = [k]) (hb : h.behavior = .ok) :
    paramType cap k = zeroValueOf k ∧
    stepDefRun ⟨r, h⟩ t [cap] = (t, [Ev.handlerCalled h.id [zeroValueOf k]], false) := by
  have hz : paramType cap k = zeroValueOf k := by
    cases k with
    | str => simp [numericKind] at hk
    | int =>
      have hs2 : intSyntaxValid cap = false := hs
      unfold paramType zeroValueOf
      rw [atoi_invalid cap hs2]
    | f32 =>
      have hs2 : floatSyntaxValid cap = false := hs
      simp [paramType, parseFloatRep, zeroValueOf, hs2]
    | f64 =>
      have hs2 : floatSyntaxValid cap = false := hs
      simp [paramType, parseFloatRep, zeroValueOf, hs2]
  refine ⟨hz, ?_⟩
  unfold stepDefRun
  rw [hkinds]
  simp [hb, hz]

theorem c2_coercion_zero_witness :
    paramType "abc" Kind.int = zeroValueOf Kind.int ∧
    stepDefRun ⟨Regex.eps, ⟨50, [Kind.int], HBehavior.ok, true⟩⟩ tInit ["abc"] =
      (tInit, [Ev.handlerCalled 50 [zeroValueOf Kind.int]], false) :=
  c2_coercion_zero_on_syntax_error "abc" Kind.int ⟨50, [Kind.int], HBehavior.ok, true⟩ tInit
    Regex.eps (by decide) (by decide) rfl rfl

/-- C2 counterexample: the twenty-nines capture does not parse as an int
(Atoi reports ErrRange), yet the coercion layer delivers the saturated
64-bit maximum, not the numeric zero value the claim promises. -/
theorem c2_counterexample :
    (atoi "99999999999999999999").2 = false ∧
    paramType "99999999999999999999" Kind.int = Value.int 9223372036854775807 ∧
    Value.int 9223372036854775807 ≠ Value.int 0 := by
  decide

/-! ## Outline-expansion claim (C3)

The registered handler takes two int parameters; the suite holds the
original outline pattern in compiled form.  The intermediate values of
the expansion (the synthesized pattern's parse, each substituted row, the
lookup and the registration a row performs) are established as separate
evaluation lemmas, and the claim theorem assembles them. -/

def c3Handler : Handler := ⟨30, [Kind.int, Kind.int], .ok, true⟩

def c3DigGrp (i : Nat) : Regex :=
  .grp i (.seq (.seq .dig (.star .dig)) .eps)

/-- The compiled form of the synthesized pattern (what regexCompile
yields on it; see c3_compile). -/
def c3Pat : Regex :=
  .seq (.chr 'a') (.seq (.chr 'd') (.seq (.chr 'd') (.seq (.chr ' ')
    (.seq (c3DigGrp 1) (.seq (.chr ' ') (.seq (.chr 'a') (.seq (.chr 'n')
      (.seq (.chr 'd') (.seq (.chr ' ') (.seq (c3DigGrp 2) .eps))))))))))

def c3Suite : Suite :=
  { steps := [⟨c3Pat, c3Handler⟩], options := newSuiteOptions, hasStepErrors := false
    parameterTypes := [], setupFatal := false }

def c3Suite2 : Suite := { c3Suite with steps := [⟨c3Pat, c3Handler⟩, ⟨c3Pat, c3Handler⟩] }

def c3Suite3 : Suite :=
  { c3Suite with steps := [⟨c3Pat, c3Handler⟩, ⟨c3Pat, c3Handler⟩, ⟨c3Pat, c3Handler⟩] }

def c3SourceStep : GStep := { keyword := "Given ", text := "add <a> and <b>", line := 3 }

def c3Step1 : GStep := { keyword := "Given ", text := "add 1 and 2", line := 3 }

def c3Step2 : GStep := { keyword := "Given ", text := "add 3 and 4", line := 3 }

def c3Example : GExamples :=
  { tableHeader := { cells := ["a", "b"] }
    tableBody := [{ cells := ["1", "2"] }, { cells := ["3", "4"] }] }

def c3EmptyExample : GExamples := { tableHeader := { cells := ["a", "b"] }, tableBody := [] }

theorem c3_compile : regexCompile "add (\\d+) and (\\d+)" = some c3Pat := by decide

theorem c3_sub1 :
    stepFromExample "add <a> and <b>" ["1", "2"] ["<a>", "<b>"] =
      ("add 1 and 2", "add (\\d+) and (\\d+)") := by decide

theorem c3_sub2 :
    stepFromExample "add <a> and <b>" ["3", "4"] ["<a>", "<b>"] =
      ("add 3 and 4", "add (\\d+) and (\\d+)") := by decide

theorem c3_find1 : findStepDef c3Suite.steps "add 1 and 2" = some ⟨c3Pat, c3Handler⟩ := by
  decide

theorem c3_find2 : findStepDef c3Suite2.steps "add 3 and 4" = some ⟨c3Pat, c3Handler⟩ := by
  decide

theorem c3_add1 : addStep c3Suite "add (\\d+) and (\\d+)" c3Handler = c3Suite2 := by decide

theorem c3_add2 : addStep c3Suite2 "add (\\d+) and (\\d+)" c3Handler = c3Suite3 := by decide

theorem c3_row1 :
    sfeRow c3SourceStep ["<a>", "<b>"] (c3Suite, []) ⟨["1", "2"]⟩ = (c3Suite2, [c3Step1]) := by
  simp only [sfeRow, c3_sub1, c3_find1, c3_add1]
  rfl

theorem c3_row2 :
    sfeRow c3SourceStep ["<a>", "<b>"] (c3Suite2, [c3Step1]) ⟨["3", "4"]⟩ =
      (c3Suite3, [c3Step1, c3Step2]) := by
  simp only [sfeRow, c3_sub2, c3_find2, c3_add2]
  rfl

theorem c3_sfex :
    stepsFromExamples c3Suite c3SourceStep c3Example = (c3Suite3, [c3Step1, c3Step2]) := by
  unfold stepsFromExamples
  rw [show c3Example.tableHeader.cells.map (fun c => "<" ++ c ++ ">") = ["<a>", "<b>"]
    from by decide]
  rw [show c3Example.tableBody = [⟨["1", "2"]⟩, ⟨["3", "4"]⟩] from rfl]
  rw [List.foldl_cons, c3_row1, List.foldl_cons, c3_row2, List.foldl_nil]

theorem c3_ginner :
    gosInner c3SourceStep (c3Suite, []) c3Example = (c3Suite3, [c3Step1, c3Step2]) := by
  simp only [gosInner, c3_sfex, List.nil_append]

theorem c3_gstep :
    gosStep [c3Example] (c3Suite, []) c3SourceStep = (c3Suite3, [[c3Step1, c3Step2]]) := by
  simp only [gosStep, List.foldl_cons, List.foldl_nil, c3_ginner, List.nil_append]

theorem c3_built :
    [c3SourceStep].foldl (gosStep [c3Example]) (c3Suite, []) = (c3Suite3, [[c3Step1, c3Step2]]) := by
  rw [List.foldl_cons, c3_gstep, List.foldl_nil]

theorem c3_gos :
    getOutlineStep c3Suite [c3SourceStep] [c3Example] = (c3Suite3, [c3Step1, c3Step2]) := by
  unfold getOutlineStep
  rw [c3_built]
  decide

theorem c3_gos_empty :
    getOutlineStep c3Suite [c3SourceStep] [c3EmptyExample] = (c3Suite, []) := by decide

/-- C3: expanding the outline step "add <a> and <b>" with header [a, b]
and body rows [1,2], [3,4] against a suite in which the original pattern
is registered yields exactly the two concrete steps "add 1 and 2" and
"add 3 and 4" in that order, each resolving to a registered definition in
the post-expansion registry; an outline with zero example body rows
yields zero expanded steps and leaves the suite unchanged. -/
theorem c3_outline_expansion :
    (getOutlineStep c3Suite [c3SourceStep] [c3Example]).2.map (fun st => st.text) =
      ["add 1 and 2", "add 3 and 4"] ∧
    (findStepDef (getOutlineStep c3Suite [c3SourceStep] [c3Example]).1.steps
      "add 1 and 2").isSome = true ∧
    (findStepDef (getOutlineStep c3Suite [c3SourceStep] [c3Example]).1.steps
      "add 3 and 4").isSome = true ∧
    (getOutlineStep c3Suite [c3SourceStep] [c3EmptyExample]).2 = [] ∧
    (getOutlineStep c3Suite [c3SourceStep] [c3EmptyExample]).1 = c3Suite := by
  refine ⟨?_, ?_, ?_, ?_, ?_⟩
  · rw [c3_gos]
    decide
  · rw [c3_gos]
    decide
  · rw [c3_gos]
    decide
  · rw [c3_gos_empty]
  · rw [c3_gos_empty]

/-! ## Report-shape lemmas -/

/-- The record FormatScenarioWithSteps produces for one source step. -/
def recordedStep (v : String) (st : GStep) : CStep :=
  { stepResult := { errorMsg := "", runStatus := v, executionTime := 0 }
    mtch := { location := "" }
    keyword := st.keyword
    name := st.text
    line := st.line }

theorem foldl_addStepC_steps (v : String) :
    ∀ (l : List GStep) (base : CScenario),
      (l.foldl (fun acc st => addStepC acc st.keyword st.text st.line "" v) base).steps =
        base.steps ++ l.map (recordedStep v)
  | [], base => by simp
  | st :: rest, base => by
    rw [List.foldl_cons, foldl_addStepC_steps v rest]
    simp [addStepC, recordedStep]

theorem formatScenarioWithSteps_steps (sc : GScenario) (v : String) :
    (formatScenarioWithSteps sc v).steps = sc.steps.map (recordedStep v) := by
  unfold formatScenarioWithSteps
  rw [foldl_addStepC_steps]
  simp [formatScenario]

theorem formatScenarioWithSteps_status (sc : GScenario) (v : String) :
    ∀ st ∈ (formatScenarioWithSteps sc v).steps, st.stepResult.runStatus = v := by
  intro st hst
  rw [formatScenarioWithSteps_steps] at hst
  rcases List.mem_map.mp hst with ⟨g, _, rfl⟩
  rfl

/-! ## Skip claim (C4) -/

/-- C4: a scenario whose tags put it in the ignore list, or that misses a
non-empty allow-list, is skipped: the child-loop records the scenario
with every step carrying the skipped status, and produces no events at
all — no handler, no step hook and no scenario hook run, because the
skip test is evaluated before the scenario subtest (and with it the
before/after-scenario hooks) is ever entered. -/
theorem c4_skip_before_hooks (s : Suite) (tf : TState) (bkg : Option GBackground)
    (sc : GScenario)
    (h : (∃ tag ∈ sc.tags, contains s.options.ignoreTags tag.name = true) ∨
         (s.options.tags ≠ [] ∧ ∀ tag ∈ sc.tags, contains s.options.tags tag.name = false)) :
    skipScenario s sc.tags = true ∧
    processScenario s tf bkg sc = (s, formatScenarioWithSteps sc "skipped", [], tf) ∧
    ∀ st ∈ (formatScenarioWithSteps sc "skipped").steps, st.stepResult.runStatus = "skipped" := by
  have hskip : skipScenario s sc.tags = true := by
    unfold skipScenario
    rcases h with ⟨tag, htag, hc⟩ | ⟨hne, hall⟩
    · rw [if_pos (List.any_eq_true.mpr ⟨tag, htag, hc⟩)]
    · by_cases hig : sc.tags.any (fun tag => contains s.options.ignoreTags tag.name) = true
      · rw [if_pos hig]
      · rw [if_neg hig, if_neg, if_neg]
        · intro hany
          rcases List.any_eq_true.mp hany with ⟨tag, htag, hc⟩
          rw [hall tag htag] at hc
          cases hc
        · intro hlen
          exact hne (List.length_eq_zero.mp hlen)
  refine ⟨hskip, ?_, formatScenarioWithSteps_status sc "skipped"⟩
  unfold processScenario
  rw [if_pos hskip]

def c4Suite : Suite :=
  { steps := []
    options := { newSuiteOptions with
      ignoreTags := ["@skip"], beforeScenario := [1], afterScenario := [2]
      beforeStep := [3], afterStep := [4] }
    hasStepErrors := false, parameterTypes := [], setupFatal := false }

def c4Scenario : GScenario :=
  { id := "1", keyword := "Scenario", name := "sk", description := ""
    tags := [⟨"@skip", 2⟩]
    steps := [⟨"When ", "anything", 4⟩], examples := [] }

theorem c4_skip_before_hooks_witness :
    skipScenario c4Suite c4Scenario.tags = true ∧
    processScenario c4Suite tInit none c4Scenario =
      (c4Suite, formatScenarioWithSteps c4Scenario "skipped", [], tInit) ∧
    ∀ st ∈ (formatScenarioWithSteps c4Scenario "skipped").steps,
      st.stepResult.runStatus = "skipped" :=
  c4_skip_before_hooks c4Suite tInit none c4Scenario
    (Or.inl ⟨⟨"@skip", 2⟩, by decide, by decide⟩)

/-! ## Panic-containment claim (C5) -/

/-- Character-chain regex used by the demonstration suites (the compiled
form of a fully literal pattern). -/
def chrSeq (l : List Char) : Regex := l.foldr (fun c r => .seq (.chr c) r) .eps

/-- C5: a handler that panics during invocation is caught inside
stepDef.run and converted to a failure of the step subtest: runStep
completes normally (no unwind past the step boundary), yields exactly one
formatted step record with status failed, its trace holds the before-step
hooks, exactly one handler invocation and every after-step hook exactly
once; and runSteps continues with the remaining steps of the scenario
from the updated test state. -/
theorem c5_panic_contained (s : Suite) (t : TState) (step : GStep) (d : stepDef) (msg : String)
    (rest : List GStep) (acc : CScenario)
    (hd : findStepDef s.steps step.text = some d)
    (hb : d.f.behavior = .panics msg)
    (ha : (findSubmatchParams d.expr step.text).length = d.f.kinds.length) :
    runStep s t step =
      ({ t with failed := true }, some (generateFormattedStep step true false),
        s.options.beforeStep.map Ev.beforeStepHook
          ++ [Ev.handlerCalled d.f.id
                (((findSubmatchParams d.expr step.text).zip d.f.kinds).map
                  (fun p => paramType p.1 p.2))]
          ++ s.options.afterStep.map Ev.afterStepHook) ∧
    (generateFormattedStep step true false).stepResult.runStatus = "failed" ∧
    runSteps s t (step :: rest) acc =
      ((runSteps s { t with failed := true } rest
          (addStepObj acc (generateFormattedStep step true false))).1,
       (runSteps s { t with failed := true } rest
          (addStepObj acc (generateFormattedStep step true false))).2.1,
       (s.options.beforeStep.map Ev.beforeStepHook
          ++ [Ev.handlerCalled d.f.id
                (((findSubmatchParams d.expr step.text).zip d.f.kinds).map
                  (fun p => paramType p.1 p.2))]
          ++ s.options.afterStep.map Ev.afterStepHook)
         ++ (runSteps s { t with failed := true } rest
              (addStepObj acc (generateFormattedStep step true false))).2.2.1,
       (runSteps s { t with failed := true } rest
          (addStepObj acc (generateFormattedStep step true false))).2.2.2) := by
  have hrun : stepDefRun d tInit (findSubmatchParams d.expr step.text) =
      ({ failed := true, skipped := false },
        [Ev.handlerCalled d.f.id
          (((findSubmatchParams d.expr step.text).zip d.f.kinds).map
            (fun p => paramType p.1 p.2))],
        false) := by
    unfold stepDefRun
    rw [if_neg (by omega)]
    rw [hb]
    rfl
  have hstep : runStep s t step =
      ({ t with failed := true }, some (generateFormattedStep step true false),
        s.options.beforeStep.map Ev.beforeStepHook
          ++ [Ev.handlerCalled d.f.id
                (((findSubmatchParams d.expr step.text).zip d.f.kinds).map
                  (fun p => paramType p.1 p.2))]
          ++ s.options.afterStep.map Ev.afterStepHook) := by
    unfold runStep
    rw [hd]
    simp only [hrun, Bool.or_true]
    rfl
  refine ⟨hstep, rfl, ?_⟩
  simp only [runSteps]
  rw [hstep]

def c5Handler : Handler := ⟨41, [], .panics "boom", true⟩

def c5NextHandler : Handler := ⟨42, [], .ok, true⟩

def c5Suite : Suite :=
  { steps := [⟨chrSeq "first step".data, c5Handler⟩, ⟨chrSeq "second step".data, c5NextHandler⟩]
    options := { newSuiteOptions with
      beforeScenario := [1], afterScenario := [2], beforeStep := [3], afterStep := [4] }
    hasStepErrors := false, parameterTypes := [], setupFatal := false }

def c5Step1 : GStep := ⟨"When ", "first step", 4⟩

def c5Step2 : GStep := ⟨"Then ", "second step", 5⟩

theorem c5_panic_contained_witness :
    runStep c5Suite tInit c5Step1 =
      ({ tInit with failed := true }, some (generateFormattedStep c5Step1 true false),
        [Ev.beforeStepHook 3, Ev.handlerCalled 41 [], Ev.afterStepHook 4]) ∧
    (generateFormattedStep c5Step1 true false).stepResult.runStatus = "failed" ∧
    runSteps c5Suite tInit [c5Step1, c5Step2] (formatScenario c4Scenario) =
      ((runSteps c5Suite { tInit with failed := true } [c5Step2]
          (addStepObj (formatScenario c4Scenario) (generateFormattedStep c5Step1 true false))).1,
       (runSteps c5Suite { tInit with failed := true } [c5Step2]
          (addStepObj (formatScenario c4Scenario) (generateFormattedStep c5Step1 true false))).2.1,
       [Ev.beforeStepHook 3, Ev.handlerCalled 41 [], Ev.afterStepHook 4]
         ++ (runSteps c5Suite { tInit with failed := true } [c5Step2]
              (addStepObj (formatScenario c4Scenario) (generateFormattedStep c5Step1 true false))).2.2.1,
       (runSteps c5Suite { tInit with failed := true } [c5Step2]
          (addStepObj (formatScenario c4Scenario) (generateFormattedStep c5Step1 true false))).2.2.2) := by
  have h := c5_panic_contained c5Suite tInit c5Step1 ⟨chrSeq "first step".data, c5Handler⟩
    "boom" [c5Step2] (formatScenario c4Scenario) (by decide) rfl (by decide)
  exact h

/-! ## Unresolved-step claim (C6) -/

def isScnChild : GChild → Bool
  | .scn _ => true
  | .bkg _ => false

theorem runFeatureLoop_elements :
    ∀ (children : List GChild) (s : Suite) (tf : TState) (bkg : Option GBackground)
      (ff : CFeature),
      ((runFeatureLoop s tf bkg ff children).2.1).elements.length =
        ff.elements.length + (children.filter isScnChild).length
  | [], _, _, _, _ => by simp [runFeatureLoop]
  | .bkg b :: rest, s, tf, bkg, ff => by
    simp only [runFeatureLoop]
    rw [runFeatureLoop_elements rest]
    simp [isScnChild]
  | .scn sc :: rest, s, tf, bkg, ff => by
    simp only [runFeatureLoop]
    rw [runFeatureLoop_elements rest]
    simp [isScnChild, addScenarioF]
    omega

/-- C6: a step whose text resolves to no registered definition is fatal
to its scenario: runStep fails the scenario-level test state, produces no
step record, no hook or handler event, and unwinds; runSteps therefore
stops at that step — its result is independent of whatever steps follow,
so none of them runs a handler or hook; and the feature loop still
records one scenario element per scenario child, so sibling scenarios are
not aborted. -/
theorem c6_unresolved_fatal (s : Suite) (t : TState) (stK : GStep) (post : List GStep)
    (acc : CScenario) (f : GFeature)
    (hk : findStepDef s.steps stK.text = none) :
    runStep s t stK = ({ t with failed := true }, none, []) ∧
    runSteps s t (stK :: post) acc = ({ t with failed := true }, acc, [], true) ∧
    (f.tags.any (fun tag => contains s.options.ignoreTags tag.name) = false →
      ∃ r, runFeature s f = some r ∧
        (r.2.1).elements.length = (f.children.filter isScnChild).length) := by
  have hstep : runStep s t stK = ({ t with failed := true }, none, []) := by
    unfold runStep
    rw [hk]
  refine ⟨hstep, ?_, ?_⟩
  · simp only [runSteps]
    rw [hstep]
  · intro hnotig
    unfold runFeature
    rw [if_neg (by rw [hnotig]; intro hx; cases hx)]
    refine ⟨_, rfl, ?_⟩
    rw [runFeatureLoop_elements]
    simp [formatFeature, generateFeature]

def c6Scenario1 : GScenario :=
  { id := "1", keyword := "Scenario", name := "broken", description := "", tags := []
    steps := [⟨"When ", "missing step", 4⟩, ⟨"Then ", "second step", 5⟩], examples := [] }

def c6Scenario2 : GScenario :=
  { id := "2", keyword := "Scenario", name := "fine", description := "", tags := []
    steps := [⟨"Then ", "second step", 5⟩], examples := [] }

def c6Feature : GFeature :=
  { name := "f", description := "", keyword := "Feature", line := 1, tags := []
    children := [.scn c6Scenario1, .scn c6Scenario2] }

theorem c6_unresolved_fatal_witness :
    runStep c5Suite tInit ⟨"When ", "missing step", 4⟩ =
      ({ tInit with failed := true }, none, []) ∧
    runSteps c5Suite tInit [⟨"When ", "missing step", 4⟩, ⟨"Then ", "second step", 5⟩]
      (formatScenario c6Scenario1) =
      ({ tInit with failed := true }, formatScenario c6Scenario1, [], true) ∧
    (c6Feature.tags.any (fun tag => contains c5Suite.options.ignoreTags tag.name) = false →
      ∃ r, runFeature c5Suite c6Feature = some r ∧
        (r.2.1).elements.length = (c6Feature.children.filter isScnChild).length) :=
  c6_unresolved_fatal c5Suite tInit ⟨"When ", "missing step", 4⟩
    [⟨"Then ", "second step", 5⟩] (formatScenario c6Scenario1) c6Feature (by decide)

/-! ## Ignored-feature claim (C7) -/

theorem ffwsChildren_all_scn :
    ∀ (children : List GChild) (ft : CFeature),
      (∀ c ∈ children, isScnChild c = true) →
      ∃ ff, ffwsChildren ft children = some ff ∧
        ff.elements = ft.elements ++ children.filterMap (fun c =>
          (childScenario c).map (fun sc => formatScenarioWithSteps sc ""))
  | [], ft, _ => ⟨ft, rfl, by simp⟩
  | .bkg b :: rest, _, h => by
    have := h (.bkg b) (List.mem_cons_self _ _)
    simp [isScnChild] at this
  | .scn sc :: rest, ft, h => by
    rcases ffwsChildren_all_scn rest (addScenarioF ft (formatScenarioWithSteps sc ""))
      (fun c hc => h c (List.mem_cons_of_mem _ hc)) with ⟨ff, heq, helem⟩
    refine ⟨ff, ?_, ?_⟩
    · simpa [ffwsChildren, formatScenarioWithStepsOpt, childScenario] using heq
    · rw [helem]
      simp [addScenarioF, childScenario, List.filterMap_cons]

theorem ffwsChildren_has_bkg :
    ∀ (children : List GChild) (ft : CFeature),
      (∃ c ∈ children, isScnChild c = false) →
      ffwsChildren ft children = none
  | [], _, h => by
    rcases h with ⟨c, hc, _⟩
    exact absurd hc (List.not_mem_nil c)
  | .bkg _ :: _, _, _ => rfl
  | .scn sc :: rest, ft, h => by
    rcases h with ⟨c, hc, hf⟩
    rcases List.mem_cons.mp hc with heq | hrest
    · rw [heq] at hf
      simp [isScnChild] at hf
    · simpa [ffwsChildren, formatScenarioWithStepsOpt, childScenario] using
        ffwsChildren_has_bkg rest (addScenarioF ft (formatScenarioWithSteps sc ""))
          ⟨c, hrest, hf⟩

/-- C7 (amended): a feature carrying a tag in the ignore list stops
processing immediately: runFeature leaves the suite unchanged and emits
no events at all — no step handler, step hook or scenario hook runs.
When every child is a scenario, the report records one element per
scenario child whose steps all carry the empty status string, not
"skipped" as the claim states (see the counterexample); when a
background child is present, FormatScenarioWithSteps dereferences the
nil scenario returned for it and the run panics without recording
anything. -/
theorem c7_feature_ignored (s : Suite) (f : GFeature)
    (h : ∃ tag ∈ f.tags, contains s.options.ignoreTags tag.name = true) :
    runFeature s f = (formatFeatureWithScenario f).map (fun ff => (s, ff, [], false)) ∧
    (∀ r, runFeature s f = some r → r.1 = s ∧ r.2.2.1 = []) ∧
    ((∀ c ∈ f.children, isScnChild c = true) →
      ∃ ff, formatFeatureWithScenario f = some ff ∧
        ff.elements = f.children.filterMap (fun c =>
          (childScenario c).map (fun sc => formatScenarioWithSteps sc "")) ∧
        ∀ sc ∈ ff.elements, ∀ st ∈ sc.steps, st.stepResult.runStatus = "") ∧
    ((∃ c ∈ f.children, isScnChild c = false) → formatFeatureWithScenario f = none) := by
  have hrf : runFeature s f =
      (formatFeatureWithScenario f).map (fun ff => (s, ff, [], false)) := by
    unfold runFeature
    rw [if_pos (List.any_eq_true.mpr h)]
  refine ⟨hrf, ?_, ?_, ?_⟩
  · intro r hr
    rw [hrf] at hr
    rcases Option.map_eq_some'.mp hr with ⟨ff, _, rfl⟩
    exact ⟨rfl, rfl⟩
  · intro hall
    rcases ffwsChildren_all_scn f.children (formatFeature f) hall with ⟨ff, heq, helem⟩
    refine ⟨ff, heq, ?_, ?_⟩
    · rw [helem]
      simp [formatFeature, generateFeature]
    · intro sc hsc st hst
      rw [helem] at hsc
      simp only [formatFeature, generateFeature, List.nil_append] at hsc
      rcases List.mem_filterMap.mp hsc with ⟨c, _, hc⟩
      rcases Option.map_eq_some'.mp hc with ⟨g, _, rfl⟩
      exact formatScenarioWithSteps_status g "" st hst
  · exact fun hbkg => ffwsChildren_has_bkg f.children (formatFeature f) hbkg

def c7Suite : Suite :=
  { steps := []
    options := { newSuiteOptions with
      ignoreTags := ["@wip"], beforeScenario := [1], afterScenario := [2]
      beforeStep := [3], afterStep := [4] }
    hasStepErrors := false, parameterTypes := [], setupFatal := false }

def c7Scenario : GScenario :=
  { id := "1", keyword := "Scenario", name := "sc", description := "", tags := []
    steps := [⟨"When ", "first step", 4⟩], examples := [] }

def c7Feature : GFeature :=
  { name := "f", description := "", keyword := "Feature", line := 1
    tags := [⟨"@wip", 1⟩], children := [.scn c7Scenario] }

theorem c7_feature_ignored_witness :
    runFeature c7Suite c7Feature =
      (formatFeatureWithScenario c7Feature).map (fun ff => (c7Suite, ff, [], false)) ∧
    (∀ r, runFeature c7Suite c7Feature = some r → r.1 = c7Suite ∧ r.2.2.1 = []) ∧
    ((∀ c ∈ c7Feature.children, isScnChild c = true) →
      ∃ ff, formatFeatureWithScenario c7Feature = some ff ∧
        ff.elements = c7Feature.children.filterMap (fun c =>
          (childScenario c).map (fun sc => formatScenarioWithSteps sc "")) ∧
        ∀ sc ∈ ff.elements, ∀ st ∈ sc.steps, st.stepResult.runStatus = "") ∧
    ((∃ c ∈ c7Feature.children, isScnChild c = false) →
      formatFeatureWithScenario c7Feature = none) :=
  c7_feature_ignored c7Suite c7Feature ⟨⟨"@wip", 1⟩, by decide, by decide⟩

def c7DfltStep : CStep := generateStep "" "" 0 ""

def c7DfltScenario : CScenario :=
  { steps := [], tags := [], id := "", keyword := "", name := "", description := "", ty := "" }

def c7DfltResult : Suite × CFeature × List Ev × Bool :=
  (c7Suite, formatFeature c7Feature, [], false)

/-- C7 counterexample: the ignored feature (its single child a scenario)
produces a report with no events, and the scenario's step is recorded
with the empty status string — not the "skipped" status the claim
promises (a skipped scenario records "skipped", as C4 shows). -/
theorem c7_counterexample :
    (runFeature c7Suite c7Feature).isSome = true ∧
    ((runFeature c7Suite c7Feature).getD c7DfltResult).2.2.1 = [] ∧
    (((((runFeature c7Suite c7Feature).getD c7DfltResult).2.1).elements.getD 0
        c7DfltScenario).steps.getD 0 c7DfltStep).stepResult.runStatus = "" ∧
    ("" : String) ≠ "skipped" := by
  decide

/-! ## Parameter-type expansion claim (C8) -/

theorem apt_inner (expr tok : String) :
    ∀ (frs : List String) (exprs : List String),
      frs.foldl (fun exprs2 t =>
        if containsStr expr tok then exprs2 ++ [replaceAllStr expr tok t] else exprs2) exprs =
        exprs ++ (if containsStr expr tok = true then frs.map (replaceAllStr expr tok) else [])
  | [], exprs => by simp
  | fr :: rest, exprs => by
    rw [List.foldl_cons, apt_inner expr tok rest]
    by_cases hc : containsStr expr tok = true
    · simp [hc]
    · simp [hc]

theorem apt_outer (expr : String) :
    ∀ (pts : List (String × List String)) (exprs : List String),
      pts.foldl (fun exprs p =>
        p.2.foldl (fun exprs2 t =>
          if containsStr expr p.1 then exprs2 ++ [replaceAllStr expr p.1 t] else exprs2)
          exprs) exprs =
        exprs ++ pts.flatMap (fun p =>
          if containsStr expr p.1 = true then p.2.map (replaceAllStr expr p.1) else [])
  | [], exprs => by simp
  | p :: rest, exprs => by
    rw [List.foldl_cons, apt_inner expr p.1 p.2, apt_outer expr rest]
    simp

theorem applyParameterTypes_eq (s : Suite) (expr : String) :
    applyParameterTypes s expr =
      expr :: s.parameterTypes.flatMap (fun p =>
        if containsStr expr p.1 = true then p.2.map (replaceAllStr expr p.1) else []) := by
  unfold applyParameterTypes
  rw [apt_outer]
  rfl

theorem regLoop_all_compile (h : Handler) :
    ∀ (l : List String) (s : Suite),
      (∀ e ∈ l, (regexCompile e).isSome = true) →
      regLoop s l h =
        { s with steps := s.steps ++ l.filterMap (fun e =>
            (regexCompile e).map (fun r => ⟨r, h⟩)) }
  | [], s, _ => by simp [regLoop]
  | e :: rest, s, hall => by
    rcases Option.isSome_iff_exists.mp (hall e (List.mem_cons_self e rest)) with ⟨r, hr⟩
    simp only [regLoop, hr]
    rw [regLoop_all_compile h rest _ (fun e2 he2 => hall e2 (List.mem_cons_of_mem e he2))]
    simp [List.filterMap_cons, hr]

/-- C8 (amended): for a registered token contained in the pattern,
expansion produces the original pattern plus one candidate per fragment
(every occurrence of the token replaced by that fragment); when the
handler validates and every candidate compiles, AddStep registers exactly
one definition per candidate, all bound to the same handler.  A candidate
need not compile, however — the pattern decides that — in which case
registration stops with the suite marked as having step errors (see the
counterexample). -/
theorem c8_expansion (s : Suite) (expr tok : String) (frs : List String) (h : Handler)
    (hmem : (tok, frs) ∈ s.parameterTypes)
    (hc : containsStr expr tok = true)
    (hv : validateStepFunc h = true)
    (hall : ∀ e ∈ applyParameterTypes s expr, (regexCompile e).isSome = true) :
    expr ∈ applyParameterTypes s expr ∧
    (∀ fr ∈ frs, replaceAllStr expr tok fr ∈ applyParameterTypes s expr) ∧
    (addStep s expr h).steps =
      s.steps ++ (applyParameterTypes s expr).filterMap (fun e =>
        (regexCompile e).map (fun r => ⟨r, h⟩)) ∧
    ∀ sd ∈ (addStep s expr h).steps, sd ∈ s.steps ∨ sd.f = h := by
  have hadd : (addStep s expr h).steps =
      s.steps ++ (applyParameterTypes s expr).filterMap (fun e =>
        (regexCompile e).map (fun r => ⟨r, h⟩)) := by
    unfold addStep
    rw [hv]
    simp only [Bool.not_true, Bool.false_eq_true, if_false]
    rw [regLoop_all_compile h (applyParameterTypes s expr) s hall]
  refine ⟨?_, ?_, hadd, ?_⟩
  · rw [applyParameterTypes_eq]
    exact List.mem_cons_self expr _
  · intro fr hfr
    rw [applyParameterTypes_eq]
    refine List.mem_cons_of_mem expr (List.mem_flatMap.mpr ⟨(tok, frs), hmem, ?_⟩)
    rw [if_pos hc]
    exact List.mem_map_of_mem (replaceAllStr expr tok) hfr
  · intro sd hsd
    rw [hadd] at hsd
    rcases List.mem_append.mp hsd with hin | hnew
    · exact Or.inl hin
    · rcases List.mem_filterMap.mp hnew with ⟨e, _, he⟩
      rcases Option.map_eq_some'.mp he with ⟨r, _, rfl⟩
      exact Or.inr rfl

def c8Suite : Suite :=
  { steps := [], options := newSuiteOptions, hasStepErrors := false
    parameterTypes := [("{int}", ["(\\d)"])], setupFatal := false }

def c8Handler : Handler := ⟨60, [Kind.int], .ok, true⟩

theorem c8_expansion_witness :
    "I have {int} cats" ∈ applyParameterTypes c8Suite "I have {int} cats" ∧
    (∀ fr ∈ ["(\\d)"],
      replaceAllStr "I have {int} cats" "{int}" fr ∈
        applyParameterTypes c8Suite "I have {int} cats") ∧
    (addStep c8Suite "I have {int} cats" c8Handler).steps =
      c8Suite.steps ++ (applyParameterTypes c8Suite "I have {int} cats").filterMap (fun e =>
        (regexCompile e).map (fun r => ⟨r, c8Handler⟩)) ∧
    ∀ sd ∈ (addStep c8Suite "I have {int} cats" c8Handler).steps,
      sd ∈ c8Suite.steps ∨ sd.f = c8Handler :=
  c8_expansion c8Suite "I have {int} cats" "{int}" ["(\\d)"] c8Handler
    (by decide) (by decide) rfl (by decide)

/-- C8 counterexample: on the pattern "({int}" the token's fragment
produces the candidate "((\d)", which does not compile (unbalanced
group), and registration marks the suite as having step errors instead of
registering every combination — compilation success is not guaranteed
for every pattern containing a registered token. -/
theorem c8_counterexample :
    replaceAllStr "({int}" "{int}" "(\\d)" = "((\\d)" ∧
    regexCompile "((\\d)" = none ∧
    applyParameterTypes c8Suite "({int}" = ["({int}", "((\\d)"] ∧
    (addStep c8Suite "({int}" c8Handler).hasStepErrors = true ∧
    (addStep c8Suite "({int}" c8Handler).steps = [] := by
  decide

/-! ## Context-clone claim (C9) -/

theorem listGetD_append_lt {α : Type} (d : α) :
    ∀ (h : List α) (x : α) (r : Nat), r < h.length →
      (h ++ [x]).getD r d = h.getD r d
  | [], _, r, hr => absurd hr (by simp)
  | _ :: _, _, 0, _ => rfl
  | _ :: t, x, r+1, hr => listGetD_append_lt d t x r (by simpa using hr)

theorem listGetD_set_ne {α : Type} (d : α) :
    ∀ (l : List α) (i j : Nat) (a : α), i ≠ j →
      (l.set i a).getD j d = l.getD j d
  | [], _, _, _, _ => rfl
  | _ :: _, 0, 0, _, hne => absurd rfl hne
  | _ :: _, 0, _+1, _, _ => rfl
  | _ :: _, _+1, 0, _, _ => rfl
  | _ :: t, i+1, j+1, a, hne => listGetD_set_ne d t i j a (fun hij => hne (by rw [hij]))

/-- C9 (modelled from the spec, the Context type not being under src/):
cloning a context yields a fresh reference holding a copy of its
bindings; setting any key on the clone, new or overwriting, leaves every
lookup on the original reference exactly as before — the clone shares no
backing storage with the original. -/
theorem c9_clone_no_shared_storage {K V : Type} [DecidableEq K] (h : CtxHeap K V) (r : Nat)
    (hr : r < h.length) (k : K) (v : V) (key : K) :
    getCtx (setCtx (cloneCtx h r).1 (cloneCtx h r).2 k v) r key = getCtx h r key := by
  unfold cloneCtx setCtx getCtx
  rw [listGetD_set_ne [] (List.append h [h.getD r []]) h.length r _ (Nat.ne_of_gt hr)]
  rw [show List.append h [h.getD r []] = h ++ [h.getD r []] from rfl]
  rw [listGetD_append_lt [] h (h.getD r []) r hr]

theorem c9_clone_no_shared_storage_witness :
    getCtx (setCtx (cloneCtx [[(1, 2)], [(3, 4)]] 0).1
        (cloneCtx ([[(1, 2)], [(3, 4)]] : CtxHeap Nat Nat) 0).2 1 99) 0 1 =
      getCtx ([[(1, 2)], [(3, 4)]] : CtxHeap Nat Nat) 0 1 :=
  c9_clone_no_shared_storage [[(1, 2)], [(3, 4)]] 0 (by decide) 1 99 1

end Gobdd
